import Mathlib

/-!
Verification development for the zrpc client-side connection manager
(header `include/zrpc/connection_manager.h`).  The header fixes the data
model (the `RemoteResponse` record with its `Status` enumeration, the
`ConnectionManager` and `Connection` surfaces); the behavioural contract
of the missing implementation file is modelled from the specification
and checked for internal consistency here.
-/

namespace Zrpc

/-- One message frame: an abstract byte buffer (`zmq::message_t`). -/
abbrev Frame := List Nat

/-- `PointerVector of zmq message` from the header: an ordered sequence of frames. -/
abbrev MessageVector := List Frame

/-- The status enumeration of `RemoteResponse` in the header, in declaration
order: INACTIVE, ACTIVE, DONE, DEADLINE_EXCEEDED. -/
inductive Status where
  | INACTIVE
  | ACTIVE
  | DONE
  | DEADLINE_EXCEEDED
deriving DecidableEq, Repr

/-- The numeric values the header assigns to each enumerator:
INACTIVE = 0, ACTIVE = 1, DONE = 2, DEADLINE_EXCEEDED = 3. -/
def Status.toNat : Status → Nat
  | .INACTIVE => 0
  | .ACTIVE => 1
  | .DONE => 2
  | .DEADLINE_EXCEEDED => 3

/-- The caller-visible response record from the header:
a status field and a reply message vector. -/
structure RemoteResponse where
  status : Status
  reply : MessageVector
deriving DecidableEq, Repr

/-- A connection handle as seen by the caller: it identifies one remote
endpoint (the `Connection` class delegates the actual work). -/
structure ConnectionHandle where
  endpoint : String
deriving DecidableEq, Repr

/-- Whether a character list contains the URI scheme separator. -/
def hasSchemeSep : List Char → Bool
  | ':' :: '/' :: '/' :: _ => true
  | _ :: rest => hasSchemeSep rest
  | [] => false

/-- Modelled from the spec: endpoint validity for `ConnectionManager::Connect`
(implementation file absent from src).  The spec describes an endpoint as a
string in URI form `scheme://host:port`; a string with no scheme separator
or with an empty scheme, such as `not-a-valid-uri`, is malformed. -/
def validEndpoint (s : String) : Bool :=
  match s.data with
  | [] => false
  | c :: rest => decide (c ≠ ':') && hasSchemeSep (c :: rest)

/-- State of a `ConnectionManager`: the constructor argument `nthreads_`
(an `int` in the header), context ownership, the number of threads actually
started, and the endpoints registered so far. -/
structure ConnectionManagerState where
  nthreads_ : Int
  owns_context_ : Bool
  threadsStarted : Int
  endpoints : List String
deriving DecidableEq, Repr

/-- `GetThreadCount` is inline in the header: it returns the `nthreads_` field. -/
def GetThreadCount (cm : ConnectionManagerState) : Int :=
  cm.nthreads_

/-- Modelled from the spec: the one-argument constructor (implementation file
absent from src) starts `nthreads` worker threads plus two internal routing
threads, creates its own transport context and therefore owns it. -/
def mkConnectionManager (nthreads : Int) : ConnectionManagerState :=
  { nthreads_ := nthreads
    owns_context_ := true
    threadsStarted := nthreads + 2
    endpoints := [] }

/-- Modelled from the spec: the constructor taking an external transport
context (implementation file absent from src) does not take ownership of
that context; thread startup is as in the other constructor. -/
def mkConnectionManagerWithContext (nthreads : Int) : ConnectionManagerState :=
  { nthreads_ := nthreads
    owns_context_ := false
    threadsStarted := nthreads + 2
    endpoints := [] }

/-- Modelled from the spec: `ConnectionManager::Connect` (implementation file
absent from src).  Registers the endpoint with every worker and returns a
handle; returns none when the endpoint string is malformed or a connection
attempt fails synchronously.  The synchronous-failure outcome is transport
state outside this core, so it enters as an oracle `syncFail`. -/
def Connect (syncFail : String → Bool) (cm : ConnectionManagerState)
    (endpoint : String) : ConnectionManagerState × Option ConnectionHandle :=
  if validEndpoint endpoint = true ∧ syncFail endpoint = false then
    ({ cm with endpoints := cm.endpoints ++ [endpoint] }, some ⟨endpoint⟩)
  else
    (cm, none)

/-- Thread identifier of a caller thread. -/
abbrev ThreadId := Nat

/-- Locally unique identifier of an in-flight request, the key of the
per-thread dispatch controller bookkeeping. -/
abbrev ReqId := Nat

/-- Modelled from the spec: the bookkeeping one dispatch controller keeps for
one submitted request (implementation file absent from src): the submitting
thread, the caller-owned response record the system writes into, the deadline
in milliseconds (-1 meaning forever), the submission timestamp, a reply that
the routing layer has delivered to the channel but that the owning thread has
not yet observed, and how many times the completion closure has run. -/
structure RequestEntry where
  owner : ThreadId
  resp : RemoteResponse
  deadline : Int
  sentAt : Nat
  buffered : Option MessageVector
  fired : Nat
deriving DecidableEq, Repr

/-- Modelled from the spec: global state of the request/response subsystem —
the controller bookkeeping across all threads (none for a request id never
submitted) together with the log of completion-closure invocations, each
tagged with the thread that ran it. -/
structure SysState where
  reqs : ReqId → Option RequestEntry
  fireLog : List (ThreadId × ReqId)

/-- Initial state: nothing submitted, no closure has run. -/
def initState : SysState :=
  { reqs := fun _ => none, fireLog := [] }

/-- Replace the bookkeeping entry of one request id. -/
def SysState.setReq (s : SysState) (id : ReqId) (e : RequestEntry) : SysState :=
  { s with reqs := fun id' => if id' = id then some e else s.reqs id' }

/-- The events of the model, each tagged with the thread performing it:
`send` is a call to `Connection::SendRequest`; `deliver` is the routing
layer handing a matching reply to the owning thread channel; `observe` is
one draining step inside `Connection::WaitUntil` on the given thread,
looking at one request at the given current time. -/
inductive Event where
  | send (t : ThreadId) (id : ReqId) (request : MessageVector)
      (deadline : Int) (now : Nat)
  | deliver (id : ReqId) (reply : MessageVector)
  | observe (t : ThreadId) (id : ReqId) (now : Nat)
deriving DecidableEq, Repr

/-- Modelled from the spec: one transition of the subsystem (implementation
file absent from src).  `send` registers a fresh request as ACTIVE with an
empty reply.  `deliver` buffers the reply on the owning thread channel
without touching the status.  `observe`, run only by the owning thread from
inside `WaitUntil`, attaches a buffered reply and moves the status to DONE,
or, if no reply is buffered and a non-negative deadline has elapsed, moves
the status to DEADLINE_EXCEEDED; either way it runs the closure exactly
there.  Events whose preconditions fail leave the state unchanged. -/
def step (s : SysState) (ev : Event) : SysState :=
  match ev with
  | .send t id _request deadline now =>
    match s.reqs id with
    | some _ => s
    | none =>
      s.setReq id
        { owner := t
          resp := { status := .ACTIVE, reply := [] }
          deadline := deadline
          sentAt := now
          buffered := none
          fired := 0 }
  | .deliver id reply =>
    match s.reqs id with
    | none => s
    | some e =>
      if e.resp.status = .ACTIVE ∧ e.buffered = none then
        s.setReq id { e with buffered := some reply }
      else s
  | .observe t id now =>
    match s.reqs id with
    | none => s
    | some e =>
      if e.owner = t ∧ e.resp.status = .ACTIVE then
        match e.buffered with
        | some r =>
          { reqs := (s.setReq id
              { e with resp := { status := .DONE, reply := r }
                       buffered := none
                       fired := e.fired + 1 }).reqs
            fireLog := s.fireLog ++ [(t, id)] }
        | none =>
          if 0 ≤ e.deadline ∧ (e.sentAt : Int) + e.deadline ≤ (now : Int) then
            { reqs := (s.setReq id
                { e with resp := { e.resp with status := .DEADLINE_EXCEEDED }
                         fired := e.fired + 1 }).reqs
              fireLog := s.fireLog ++ [(t, id)] }
          else s
      else s

/-- Run a list of events from an arbitrary state. -/
def runFrom (s : SysState) (es : List Event) : SysState :=
  es.foldl step s

/-- Run a list of events from the initial state. -/
def run (es : List Event) : SysState :=
  runFrom initState es

/-- The status of a request as the caller sees it: INACTIVE before
submission (no bookkeeping entry exists), afterwards the status stored in
the caller-owned response record. -/
def statusOf (s : SysState) (id : ReqId) : Status :=
  match s.reqs id with
  | none => .INACTIVE
  | some e => e.resp.status

/-- How many times the completion closure of request `id` has run. -/
def firedCountLog (l : List (ThreadId × ReqId)) (id : ReqId) : Nat :=
  (l.filter fun p => p.2 = id).length

/-- The edges of the per-request state machine
INACTIVE to ACTIVE to (DONE or DEADLINE_EXCEEDED), reflexive edges
included; DONE and DEADLINE_EXCEEDED have no outgoing edge. -/
def stepOk (a b : Status) : Prop :=
  a = b ∨ (a = .INACTIVE ∧ b = .ACTIVE) ∨
    (a = .ACTIVE ∧ (b = .DONE ∨ b = .DEADLINE_EXCEEDED))

/-- Invariant of one bookkeeping entry: a registered request is never
INACTIVE; its closure has run exactly once when it is resolved and not at
all while it is ACTIVE; a reply can be buffered only while it is ACTIVE;
and a request with no deadline is never DEADLINE_EXCEEDED. -/
def EntryInv (e : RequestEntry) : Prop :=
  e.resp.status ≠ .INACTIVE ∧
  e.fired = (if e.resp.status = .ACTIVE then 0 else 1) ∧
  (e.buffered ≠ none → e.resp.status = .ACTIVE) ∧
  (e.deadline = -1 → e.resp.status ≠ .DEADLINE_EXCEEDED)

/-- Global invariant: every registered entry satisfies `EntryInv` and the
invocation log counts its closure runs exactly; an unsubmitted request has
no logged closure run; and every logged run was performed by the thread
owning that request. -/
def Inv (s : SysState) : Prop :=
  (∀ id e, s.reqs id = some e → EntryInv e ∧ firedCountLog s.fireLog id = e.fired) ∧
  (∀ id, s.reqs id = none → firedCountLog s.fireLog id = 0) ∧
  (∀ p ∈ s.fireLog, ∃ e, s.reqs p.2 = some e ∧ e.owner = p.1)

/-- Effect of destroying a manager: whether every worker and routing thread
was joined, and whether the transport context was torn down. -/
structure ShutdownEffect where
  threadsJoined : Bool
  contextDestroyed : Bool
deriving DecidableEq, Repr

/-- Modelled from the spec: the destructor (implementation file absent from
src) joins all worker and routing threads and tears the context down exactly
when the manager owns it. -/
def destroyManager (cm : ConnectionManagerState) : ShutdownEffect :=
  { threadsJoined := true
    contextDestroyed := cm.owns_context_ }

theorem setReq_reqs_self (s : SysState) (id : ReqId) (e : RequestEntry) :
    (s.setReq id e).reqs id = some e := by
  simp [SysState.setReq]

theorem setReq_reqs_ne (s : SysState) {id id' : ReqId} (e : RequestEntry)
    (h : id' ≠ id) : (s.setReq id e).reqs id' = s.reqs id' := by
  simp [SysState.setReq, h]

theorem setReq_fireLog (s : SysState) (id : ReqId) (e : RequestEntry) :
    (s.setReq id e).fireLog = s.fireLog := rfl

theorem firedCountLog_append_self (l : List (ThreadId × ReqId)) (t : ThreadId)
    (id : ReqId) : firedCountLog (l ++ [(t, id)]) id = firedCountLog l id + 1 := by
  simp [firedCountLog, List.filter_append]

theorem firedCountLog_append_ne (l : List (ThreadId × ReqId)) (t : ThreadId)
    {id id' : ReqId} (h : id' ≠ id) :
    firedCountLog (l ++ [(t, id)]) id' = firedCountLog l id' := by
  simp [firedCountLog, List.filter_append, Ne.symm h]

theorem step_send_fresh (s : SysState) (t : ThreadId) (id : ReqId)
    (request : MessageVector) (dl : Int) (now : Nat) (h : s.reqs id = none) :
    step s (.send t id request dl now) =
      s.setReq id ⟨t, ⟨.ACTIVE, []⟩, dl, now, none, 0⟩ := by
  simp [step, h]

theorem step_send_stale (s : SysState) (t : ThreadId) (id : ReqId)
    (request : MessageVector) (dl : Int) (now : Nat) (e : RequestEntry)
    (h : s.reqs id = some e) : step s (.send t id request dl now) = s := by
  simp [step, h]

theorem step_deliver_none (s : SysState) (id : ReqId) (r : MessageVector)
    (h : s.reqs id = none) : step s (.deliver id r) = s := by
  simp [step, h]

theorem step_deliver_some (s : SysState) (id : ReqId) (r : MessageVector)
    (e : RequestEntry) (h : s.reqs id = some e) (ha : e.resp.status = .ACTIVE)
    (hb : e.buffered = none) :
    step s (.deliver id r) = s.setReq id { e with buffered := some r } := by
  simp [step, h, ha, hb]

theorem step_deliver_skip (s : SysState) (id : ReqId) (r : MessageVector)
    (e : RequestEntry) (h : s.reqs id = some e)
    (hn : ¬(e.resp.status = .ACTIVE ∧ e.buffered = none)) :
    step s (.deliver id r) = s := by
  simp [step, h, hn]

theorem step_observe_none (s : SysState) (t : ThreadId) (id : ReqId) (now : Nat)
    (h : s.reqs id = none) : step s (.observe t id now) = s := by
  simp [step, h]

theorem step_observe_skip (s : SysState) (t : ThreadId) (id : ReqId) (now : Nat)
    (e : RequestEntry) (h : s.reqs id = some e)
    (hn : ¬(e.owner = t ∧ e.resp.status = .ACTIVE)) :
    step s (.observe t id now) = s := by
  simp [step, h, hn]

theorem step_observe_done (s : SysState) (t : ThreadId) (id : ReqId) (now : Nat)
    (e : RequestEntry) (r : MessageVector) (h : s.reqs id = some e)
    (ho : e.owner = t) (ha : e.resp.status = .ACTIVE) (hb : e.buffered = some r) :
    step s (.observe t id now) =
      { reqs := (s.setReq id
          { e with resp := { status := .DONE, reply := r }
                   buffered := none
                   fired := e.fired + 1 }).reqs
        fireLog := s.fireLog ++ [(t, id)] } := by
  simp [step, h, ho, ha, hb]

theorem step_observe_timeout (s : SysState) (t : ThreadId) (id : ReqId) (now : Nat)
    (e : RequestEntry) (h : s.reqs id = some e)
    (ho : e.owner = t) (ha : e.resp.status = .ACTIVE) (hb : e.buffered = none)
    (hd : 0 ≤ e.deadline ∧ (e.sentAt : Int) + e.deadline ≤ (now : Int)) :
    step s (.observe t id now) =
      { reqs := (s.setReq id
          { e with resp := { e.resp with status := .DEADLINE_EXCEEDED }
                   fired := e.fired + 1 }).reqs
        fireLog := s.fireLog ++ [(t, id)] } := by
  simp [step, h, ho, ha, hb, hd]

theorem step_observe_wait (s : SysState) (t : ThreadId) (id : ReqId) (now : Nat)
    (e : RequestEntry) (h : s.reqs id = some e)
    (hb : e.buffered = none)
    (hd : ¬(0 ≤ e.deadline ∧ (e.sentAt : Int) + e.deadline ≤ (now : Int))) :
    step s (.observe t id now) = s := by
  by_cases hn : e.owner = t ∧ e.resp.status = .ACTIVE
  · simp [step, h, hn, hb, hd]
  · simp [step, h, hn]

theorem inv_setReq_fresh {s : SysState} (hs : Inv s) {id : ReqId}
    {e' : RequestEntry} (hid : s.reqs id = none) (hinv : EntryInv e')
    (hf : e'.fired = 0) : Inv (s.setReq id e') := by
  obtain ⟨h1, h2, h3⟩ := hs
  refine ⟨?_, ?_, ?_⟩
  · intro id' a ha
    by_cases hEq : id' = id
    · rw [hEq, setReq_reqs_self] at ha
      have ha' : a = e' := (Option.some.inj ha).symm
      rw [ha', hEq]
      exact ⟨hinv, by rw [setReq_fireLog, h2 id hid, hf]⟩
    · rw [setReq_reqs_ne _ _ hEq] at ha
      exact ⟨(h1 id' a ha).1, by rw [setReq_fireLog]; exact (h1 id' a ha).2⟩
  · intro id' hn
    by_cases hEq : id' = id
    · rw [hEq, setReq_reqs_self] at hn
      cases hn
    · rw [setReq_reqs_ne _ _ hEq] at hn
      rw [setReq_fireLog]
      exact h2 id' hn
  · intro p hp
    rw [setReq_fireLog] at hp
    obtain ⟨a, ha, hown⟩ := h3 p hp
    have hne : p.2 ≠ id := by
      intro he
      rw [he, hid] at ha
      cases ha
    exact ⟨a, by rw [setReq_reqs_ne _ _ hne]; exact ha, hown⟩

theorem inv_setReq_update {s : SysState} (hs : Inv s) {id : ReqId}
    {e e' : RequestEntry} (hid : s.reqs id = some e) (hinv : EntryInv e')
    (hf : e'.fired = e.fired) (how : e'.owner = e.owner) :
    Inv (s.setReq id e') := by
  obtain ⟨h1, h2, h3⟩ := hs
  refine ⟨?_, ?_, ?_⟩
  · intro id' a ha
    by_cases hEq : id' = id
    · rw [hEq, setReq_reqs_self] at ha
      have ha' : a = e' := (Option.some.inj ha).symm
      rw [ha', hEq]
      exact ⟨hinv, by rw [setReq_fireLog, (h1 id e hid).2, hf]⟩
    · rw [setReq_reqs_ne _ _ hEq] at ha
      exact ⟨(h1 id' a ha).1, by rw [setReq_fireLog]; exact (h1 id' a ha).2⟩
  · intro id' hn
    by_cases hEq : id' = id
    · rw [hEq, setReq_reqs_self] at hn
      cases hn
    · rw [setReq_reqs_ne _ _ hEq] at hn
      rw [setReq_fireLog]
      exact h2 id' hn
  · intro p hp
    rw [setReq_fireLog] at hp
    obtain ⟨a, ha, hown⟩ := h3 p hp
    by_cases hEq : p.2 = id
    · refine ⟨e', by rw [hEq, setReq_reqs_self], ?_⟩
      rw [hEq, hid] at ha
      injection ha with ha
      rw [how, ha]
      exact hown
    · exact ⟨a, by rw [setReq_reqs_ne _ _ hEq]; exact ha, hown⟩

theorem inv_fire {s : SysState} (hs : Inv s) {id : ReqId} {e e' : RequestEntry}
    {t : ThreadId} (hid : s.reqs id = some e) (hinv : EntryInv e')
    (hf : e'.fired = e.fired + 1) (how : e'.owner = e.owner) (ht : e.owner = t) :
    Inv { reqs := (s.setReq id e').reqs, fireLog := s.fireLog ++ [(t, id)] } := by
  obtain ⟨h1, h2, h3⟩ := hs
  refine ⟨?_, ?_, ?_⟩
  · intro id' a ha
    dsimp only at ha ⊢
    by_cases hEq : id' = id
    · rw [hEq, setReq_reqs_self] at ha
      have ha' : a = e' := (Option.some.inj ha).symm
      rw [ha', hEq]
      refine ⟨hinv, ?_⟩
      rw [firedCountLog_append_self, (h1 id e hid).2, hf]
    · rw [setReq_reqs_ne _ _ hEq] at ha
      refine ⟨(h1 id' a ha).1, ?_⟩
      rw [firedCountLog_append_ne _ _ hEq]
      exact (h1 id' a ha).2
  · intro id' hn
    dsimp only at hn ⊢
    by_cases hEq : id' = id
    · rw [hEq, setReq_reqs_self] at hn
      cases hn
    · rw [setReq_reqs_ne _ _ hEq] at hn
      rw [firedCountLog_append_ne _ _ hEq]
      exact h2 id' hn
  · intro p hp
    dsimp only at hp ⊢
    rcases List.mem_append.1 hp with hp | hp
    · obtain ⟨a, ha, hown⟩ := h3 p hp
      by_cases hEq : p.2 = id
      · refine ⟨e', by rw [hEq, setReq_reqs_self], ?_⟩
        rw [hEq, hid] at ha
        injection ha with ha
        rw [how, ha]
        exact hown
      · exact ⟨a, by rw [setReq_reqs_ne _ _ hEq]; exact ha, hown⟩
    · rw [List.mem_singleton] at hp
      subst hp
      exact ⟨e', setReq_reqs_self s id e', by rw [how, ht]⟩

theorem inv_step {s : SysState} (hs : Inv s) (ev : Event) : Inv (step s ev) := by
  cases ev with
  | send t id request dl now =>
    cases hid : s.reqs id with
    | some e =>
      rw [step_send_stale s t id request dl now e hid]
      exact hs
    | none =>
      rw [step_send_fresh s t id request dl now hid]
      apply inv_setReq_fresh hs hid
      · exact ⟨(fun hc => nomatch hc), rfl, (fun hc => absurd rfl hc),
          (fun _ hc => nomatch hc)⟩
      · rfl
  | deliver id r =>
    cases hid : s.reqs id with
    | none =>
      rw [step_deliver_none s id r hid]
      exact hs
    | some e =>
      by_cases hg : e.resp.status = .ACTIVE ∧ e.buffered = none
      · rw [step_deliver_some s id r e hid hg.1 hg.2]
        obtain ⟨hi1, hi2, hi3, hi4⟩ := (hs.1 id e hid).1
        exact inv_setReq_update hs hid ⟨hi1, hi2, fun _ => hg.1, hi4⟩ rfl rfl
      · rw [step_deliver_skip s id r e hid hg]
        exact hs
  | observe t id now =>
    cases hid : s.reqs id with
    | none =>
      rw [step_observe_none s t id now hid]
      exact hs
    | some e =>
      by_cases hg : e.owner = t ∧ e.resp.status = .ACTIVE
      · obtain ⟨hi1, hi2, hi3, hi4⟩ := (hs.1 id e hid).1
        have hf0 : e.fired = 0 := by rw [hi2, if_pos hg.2]
        cases hbuf : e.buffered with
        | some r =>
          rw [step_observe_done s t id now e r hid hg.1 hg.2 hbuf]
          apply inv_fire hs hid
          · exact ⟨(fun hc => nomatch hc), by simp [hf0], (fun hc => absurd rfl hc),
              (fun _ hc => nomatch hc)⟩
          · rfl
          · rfl
          · exact hg.1
        | none =>
          by_cases hd : 0 ≤ e.deadline ∧ (e.sentAt : Int) + e.deadline ≤ (now : Int)
          · rw [step_observe_timeout s t id now e hid hg.1 hg.2 hbuf hd]
            apply inv_fire hs hid
            · refine ⟨(fun hc => nomatch hc), by simp [hf0], ?_, ?_⟩
              · intro hc
                exact absurd hbuf hc
              · intro hm hc
                rw [hm] at hd
                exact absurd hd.1 (by decide)
            · rfl
            · rfl
            · exact hg.1
          · rw [step_observe_wait s t id now e hid hbuf hd]
            exact hs
      · rw [step_observe_skip s t id now e hid hg]
        exact hs

theorem inv_init : Inv initState := by
  refine ⟨?_, ?_, ?_⟩
  · intro id e h
    cases h
  · intro id _
    rfl
  · intro p hp
    cases hp

theorem inv_runFrom {s : SysState} (hs : Inv s) (es : List Event) :
    Inv (runFrom s es) := by
  induction es generalizing s with
  | nil => exact hs
  | cons e es ih => exact ih (inv_step hs e)

theorem inv_run (es : List Event) : Inv (run es) :=
  inv_runFrom inv_init es

theorem statusOf_setReq_self (s : SysState) (id : ReqId) (e : RequestEntry) :
    statusOf (s.setReq id e) id = e.resp.status := by
  rw [statusOf, setReq_reqs_self]

theorem statusOf_setReq_ne (s : SysState) {id id' : ReqId} (e : RequestEntry)
    (h : id' ≠ id) : statusOf (s.setReq id e) id' = statusOf s id' := by
  rw [statusOf, setReq_reqs_ne _ _ h, statusOf]

theorem statusOf_step (s : SysState) (ev : Event) (id : ReqId) :
    stepOk (statusOf s id) (statusOf (step s ev) id) := by
  cases ev with
  | send t id0 request dl now =>
    cases hid : s.reqs id0 with
    | some e =>
      rw [step_send_stale s t id0 request dl now e hid]
      exact Or.inl rfl
    | none =>
      rw [step_send_fresh s t id0 request dl now hid]
      by_cases hEq : id = id0
      · refine Or.inr (Or.inl ⟨?_, ?_⟩)
        · rw [hEq, statusOf, hid]
        · rw [hEq, statusOf_setReq_self]
      · rw [statusOf_setReq_ne _ _ hEq]
        exact Or.inl rfl
  | deliver id0 r =>
    cases hid : s.reqs id0 with
    | none =>
      rw [step_deliver_none s id0 r hid]
      exact Or.inl rfl
    | some e =>
      by_cases hg : e.resp.status = .ACTIVE ∧ e.buffered = none
      · rw [step_deliver_some s id0 r e hid hg.1 hg.2]
        by_cases hEq : id = id0
        · refine Or.inl ?_
          rw [hEq, statusOf_setReq_self, statusOf, hid]
        · rw [statusOf_setReq_ne _ _ hEq]
          exact Or.inl rfl
      · rw [step_deliver_skip s id0 r e hid hg]
        exact Or.inl rfl
  | observe t id0 now =>
    cases hid : s.reqs id0 with
    | none =>
      rw [step_observe_none s t id0 now hid]
      exact Or.inl rfl
    | some e =>
      by_cases hg : e.owner = t ∧ e.resp.status = .ACTIVE
      · cases hbuf : e.buffered with
        | some r =>
          rw [step_observe_done s t id0 now e r hid hg.1 hg.2 hbuf]
          by_cases hEq : id = id0
          · refine Or.inr (Or.inr ⟨?_, Or.inl ?_⟩)
            · rw [hEq, statusOf, hid]
              exact hg.2
            · rw [hEq]
              show statusOf (s.setReq id0 _) id0 = Status.DONE
              rw [statusOf_setReq_self]
          · have : statusOf (step s (.observe t id0 now)) id = statusOf s id := by
              rw [step_observe_done s t id0 now e r hid hg.1 hg.2 hbuf]
              show statusOf (s.setReq id0 _) id = statusOf s id
              rw [statusOf_setReq_ne _ _ hEq]
            rw [step_observe_done s t id0 now e r hid hg.1 hg.2 hbuf] at this
            rw [this]
            exact Or.inl rfl
        | none =>
          by_cases hd : 0 ≤ e.deadline ∧ (e.sentAt : Int) + e.deadline ≤ (now : Int)
          · rw [step_observe_timeout s t id0 now e hid hg.1 hg.2 hbuf hd]
            by_cases hEq : id = id0
            · refine Or.inr (Or.inr ⟨?_, Or.inr ?_⟩)
              · rw [hEq, statusOf, hid]
                exact hg.2
              · rw [hEq]
                show statusOf (s.setReq id0 _) id0 = Status.DEADLINE_EXCEEDED
                rw [statusOf_setReq_self]
            · have : statusOf (s.setReq id0
                  { e with resp := { e.resp with status := .DEADLINE_EXCEEDED }
                           fired := e.fired + 1 }) id = statusOf s id :=
                statusOf_setReq_ne _ _ hEq
              refine Or.inl ?_
              show statusOf s id = statusOf (s.setReq id0 _) id
              rw [this]
          · rw [step_observe_wait s t id0 now e hid hbuf hd]
            exact Or.inl rfl
      · rw [step_observe_skip s t id0 now e hid hg]
        exact Or.inl rfl

theorem statusOf_runFrom_done (s : SysState) (es : List Event) (id : ReqId)
    (h : statusOf s id = .DONE) : statusOf (runFrom s es) id = .DONE := by
  induction es generalizing s with
  | nil => exact h
  | cons e es ih =>
    apply ih
    have hstep := statusOf_step s e id
    simp only [stepOk] at hstep
    rcases hstep with heq | ⟨h1, _⟩ | ⟨h1, _⟩
    · rw [← heq]
      exact h
    · rw [h] at h1
      cases h1
    · rw [h] at h1
      cases h1

theorem statusOf_runFrom_deadline (s : SysState) (es : List Event) (id : ReqId)
    (h : statusOf s id = .DEADLINE_EXCEEDED) :
    statusOf (runFrom s es) id = .DEADLINE_EXCEEDED := by
  induction es generalizing s with
  | nil => exact h
  | cons e es ih =>
    apply ih
    have hstep := statusOf_step s e id
    simp only [stepOk] at hstep
    rcases hstep with heq | ⟨h1, _⟩ | ⟨h1, _⟩
    · rw [← heq]
      exact h
    · rw [h] at h1
      cases h1
    · rw [h] at h1
      cases h1

/-- Claim C1: a request is INACTIVE before submission; every transition of
the system moves each request status along an edge of the state machine
INACTIVE to ACTIVE to (DONE or DEADLINE_EXCEEDED); and DONE and
DEADLINE_EXCEEDED are terminal — once reached, no later event sequence
changes them, so at most one of the two is ever reached. -/
theorem c1_request_status_state_machine :
    (∀ id, statusOf initState id = .INACTIVE) ∧
    (∀ s ev id, stepOk (statusOf s id) (statusOf (step s ev) id)) ∧
    (∀ s es id, statusOf s id = .DONE → statusOf (runFrom s es) id = .DONE) ∧
    (∀ s es id, statusOf s id = .DEADLINE_EXCEEDED →
      statusOf (runFrom s es) id = .DEADLINE_EXCEEDED) :=
  ⟨fun _ => rfl, statusOf_step, statusOf_runFrom_done, statusOf_runFrom_deadline⟩

/-- Witness for C1 at concrete traces: a request resolved DONE stays DONE
and one resolved DEADLINE_EXCEEDED stays DEADLINE_EXCEEDED under further
events. -/
theorem c1_request_status_state_machine_witness :
    statusOf (runFrom (run [Event.send 0 0 [[1]] (-1) 0, Event.deliver 0 [[2]],
        Event.observe 0 0 5]) [Event.observe 0 0 9, Event.deliver 0 [[3]]]) 0 =
      Status.DONE ∧
    statusOf (runFrom (run [Event.send 0 1 [[1]] 10 0, Event.observe 0 1 50])
        [Event.deliver 1 [[2]], Event.observe 0 1 60]) 1 =
      Status.DEADLINE_EXCEEDED :=
  ⟨c1_request_status_state_machine.2.2.1 _ _ 0 (by rfl),
   c1_request_status_state_machine.2.2.2 _ _ 1 (by rfl)⟩

/-- Claim C2: along any event sequence from the initial state, the closure
of a request has run exactly once when that request is DONE or
DEADLINE_EXCEEDED, and has never run otherwise; in particular a request
that was never submitted (still INACTIVE) has never run its closure. -/
theorem c2_closure_fires_exactly_once :
    ∀ es id, firedCountLog (run es).fireLog id =
      if statusOf (run es) id = .DONE ∨ statusOf (run es) id = .DEADLINE_EXCEEDED
      then 1 else 0 := by
  intro es id
  obtain ⟨h1, h2, _⟩ := inv_run es
  cases hid : (run es).reqs id with
  | none =>
    have hz := h2 id hid
    have hst : statusOf (run es) id = .INACTIVE := by rw [statusOf, hid]
    rw [hz, hst]
    simp
  | some e =>
    obtain ⟨⟨hi1, hi2, _, _⟩, hcount⟩ := h1 id e hid
    have hst : statusOf (run es) id = e.resp.status := by rw [statusOf, hid]
    rw [hcount, hst, hi2]
    cases hs : e.resp.status with
    | INACTIVE => exact absurd hs hi1
    | ACTIVE => decide
    | DONE => decide
    | DEADLINE_EXCEEDED => decide

/-- Claim C3: a request registered with deadline -1 never has status
DEADLINE_EXCEEDED in any reachable state; and when the owning thread
observes, inside WaitUntil, a request whose reply the routing layer has
delivered, the status becomes DONE. -/
theorem c3_no_deadline_no_timeout :
    (∀ es id e, (run es).reqs id = some e → e.deadline = -1 →
      e.resp.status ≠ .DEADLINE_EXCEEDED) ∧
    (∀ s t id now e r, s.reqs id = some e → e.owner = t →
      e.resp.status = .ACTIVE → e.buffered = some r →
      statusOf (step s (.observe t id now)) id = .DONE) := by
  constructor
  · intro es id e hid hdl
    exact ((inv_run es).1 id e hid).1.2.2.2 hdl
  · intro s t id now e r hid ho ha hb
    rw [step_observe_done s t id now e r hid ho ha hb]
    show statusOf (s.setReq id _) id = .DONE
    rw [statusOf_setReq_self]

/-- Witness for C3: the concrete trace send with deadline -1, deliver,
observe ends DONE and not DEADLINE_EXCEEDED, and the observe step of the
owner turns the delivered reply into status DONE. -/
theorem c3_no_deadline_no_timeout_witness :
    (RequestEntry.mk 0 (RemoteResponse.mk .DONE [[2]]) (-1) 0 none 1).resp.status ≠
      Status.DEADLINE_EXCEEDED ∧
    statusOf (step (run [Event.send 0 0 [[1]] (-1) 0, Event.deliver 0 [[2]]])
      (.observe 0 0 5)) 0 = Status.DONE :=
  ⟨c3_no_deadline_no_timeout.1
      [Event.send 0 0 [[1]] (-1) 0, Event.deliver 0 [[2]], Event.observe 0 0 500] 0
      (RequestEntry.mk 0 (RemoteResponse.mk .DONE [[2]]) (-1) 0 none 1)
      (by rfl) rfl,
   c3_no_deadline_no_timeout.2 (run [Event.send 0 0 [[1]] (-1) 0,
      Event.deliver 0 [[2]]]) 0 0 5
      (RequestEntry.mk 0 (RemoteResponse.mk .ACTIVE []) (-1) 0 (some [[2]]) 0)
      [[2]] (by rfl) rfl rfl rfl⟩

/-- Claim C4: SendRequest on a fresh request returns with the pending
response ACTIVE as a synchronous postcondition; its only effect is the
registration of that one request with its deadline — every other request
entry is untouched and no closure runs. -/
theorem c4_send_request_postcondition :
    ∀ s t id request dl now, s.reqs id = none →
      ((step s (.send t id request dl now)).reqs id =
        some (RequestEntry.mk t (RemoteResponse.mk .ACTIVE []) dl now none 0)) ∧
      statusOf (step s (.send t id request dl now)) id = .ACTIVE ∧
      (∀ id', id' ≠ id →
        (step s (.send t id request dl now)).reqs id' = s.reqs id') ∧
      (step s (.send t id request dl now)).fireLog = s.fireLog := by
  intro s t id request dl now hid
  rw [step_send_fresh s t id request dl now hid]
  exact ⟨setReq_reqs_self _ _ _, statusOf_setReq_self _ _ _,
    fun id' h => setReq_reqs_ne _ _ h, setReq_fireLog _ _ _⟩

/-- Witness for C4 at the initial state: a concrete SendRequest leaves the
response ACTIVE and does not touch an unrelated request id. -/
theorem c4_send_request_postcondition_witness :
    statusOf (step initState (.send 3 7 [[1], [2]] 100 5)) 7 = Status.ACTIVE ∧
    (step initState (.send 3 7 [[1], [2]] 100 5)).reqs 9 = initState.reqs 9 ∧
    (step initState (.send 3 7 [[1], [2]] 100 5)).fireLog = initState.fireLog :=
  ⟨(c4_send_request_postcondition initState 3 7 [[1], [2]] 100 5 rfl).2.1,
   (c4_send_request_postcondition initState 3 7 [[1], [2]] 100 5 rfl).2.2.1 9
     (by decide),
   (c4_send_request_postcondition initState 3 7 [[1], [2]] 100 5 rfl).2.2.2⟩

/-- Claim C5: a closure runs only during an observe step of WaitUntil
executed by the thread owning the request, appending exactly one entry to
the invocation log — so invocations of one thread are sequential and in
observation order; and every logged invocation was run by the owner thread
of its request, never by another thread. -/
theorem c5_closures_only_in_owner_wait :
    (∀ s ev, (step s ev).fireLog = s.fireLog ∨
      ∃ t id now e, ev = Event.observe t id now ∧ s.reqs id = some e ∧
        e.owner = t ∧ (step s ev).fireLog = s.fireLog ++ [(t, id)]) ∧
    (∀ es p, p ∈ (run es).fireLog →
      Option.map RequestEntry.owner ((run es).reqs p.2) = some p.1) := by
  constructor
  · intro s ev
    cases ev with
    | send t id request dl now =>
      cases hid : s.reqs id with
      | some e =>
        rw [step_send_stale s t id request dl now e hid]
        exact Or.inl rfl
      | none =>
        rw [step_send_fresh s t id request dl now hid]
        exact Or.inl rfl
    | deliver id r =>
      cases hid : s.reqs id with
      | none =>
        rw [step_deliver_none s id r hid]
        exact Or.inl rfl
      | some e =>
        by_cases hg : e.resp.status = .ACTIVE ∧ e.buffered = none
        · rw [step_deliver_some s id r e hid hg.1 hg.2]
          exact Or.inl rfl
        · rw [step_deliver_skip s id r e hid hg]
          exact Or.inl rfl
    | observe t id now =>
      cases hid : s.reqs id with
      | none =>
        rw [step_observe_none s t id now hid]
        exact Or.inl rfl
      | some e =>
        by_cases hg : e.owner = t ∧ e.resp.status = .ACTIVE
        · cases hbuf : e.buffered with
          | some r =>
            refine Or.inr ⟨t, id, now, e, rfl, hid, hg.1, ?_⟩
            rw [step_observe_done s t id now e r hid hg.1 hg.2 hbuf]
          | none =>
            by_cases hd : 0 ≤ e.deadline ∧ (e.sentAt : Int) + e.deadline ≤ (now : Int)
            · refine Or.inr ⟨t, id, now, e, rfl, hid, hg.1, ?_⟩
              rw [step_observe_timeout s t id now e hid hg.1 hg.2 hbuf hd]
            · rw [step_observe_wait s t id now e hid hbuf hd]
              exact Or.inl rfl
        · rw [step_observe_skip s t id now e hid hg]
          exact Or.inl rfl
  · intro es p hp
    obtain ⟨e, he, how⟩ := (inv_run es).2.2 p hp
    rw [he]
    simp [how]

/-- Witness for C5: in a concrete trace where thread 4 submitted request 2
and drained it, the logged invocation belongs to thread 4. -/
theorem c5_closures_only_in_owner_wait_witness :
    Option.map RequestEntry.owner
      ((run [Event.send 4 2 [[1]] (-1) 0, Event.deliver 2 [[9]],
        Event.observe 4 2 3]).reqs 2) = some 4 :=
  c5_closures_only_in_owner_wait.2
    [Event.send 4 2 [[1]] (-1) 0, Event.deliver 2 [[9]], Event.observe 4 2 3]
    (4, 2) (by decide)

/-- Claim C6: Connect returns a handle for the requested endpoint exactly
when the endpoint string parses and the synchronous attempt succeeds, and
returns none exactly when the string is malformed or the attempt fails
synchronously; Connect on the string not-a-valid-uri returns none under
every failure oracle. -/
theorem c6_connect_null_iff_failure :
    (∀ f cm ep, (Connect f cm ep).2 =
      (if validEndpoint ep = true ∧ f ep = false then some ⟨ep⟩ else none)) ∧
    (∀ f cm ep, (Connect f cm ep).2 = none ↔
      (validEndpoint ep = false ∨ f ep = true)) ∧
    (∀ f cm, (Connect f cm "not-a-valid-uri").2 = none) := by
  refine ⟨?_, ?_, ?_⟩
  · intro f cm ep
    by_cases h : validEndpoint ep = true ∧ f ep = false
    · rw [Connect, if_pos h, if_pos h]
    · rw [Connect, if_neg h, if_neg h]
  · intro f cm ep
    by_cases h : validEndpoint ep = true ∧ f ep = false
    · constructor
      · intro hn
        rw [Connect, if_pos h] at hn
        simp at hn
      · intro hor
        exfalso
        rcases hor with ho | ho
        · rw [h.1] at ho
          cases ho
        · rw [h.2] at ho
          cases ho
    · constructor
      · intro _
        rcases not_and_or.mp h with hv | hv
        · exact Or.inl (by simpa using hv)
        · exact Or.inr (by simpa using hv)
      · intro _
        rw [Connect, if_neg h]
  · intro f cm
    rw [Connect, if_neg]
    exact fun hc => absurd hc.1 (by decide)

/-- Claim C7: GetThreadCount returns the constructor-supplied nthreads for
both constructors and is never changed by Connect, even though the threads
actually started exceed nthreads by the constant 2 for the two internal
routing threads. -/
theorem c7_thread_count_fixed :
    (∀ n, GetThreadCount (mkConnectionManager n) = n) ∧
    (∀ n, GetThreadCount (mkConnectionManagerWithContext n) = n) ∧
    (∀ f cm ep, GetThreadCount (Connect f cm ep).1 = GetThreadCount cm) ∧
    (∀ n, (mkConnectionManager n).threadsStarted = n + 2) ∧
    (∀ n, (mkConnectionManagerWithContext n).threadsStarted = n + 2) := by
  refine ⟨fun n => rfl, fun n => rfl, ?_, fun n => rfl, fun n => rfl⟩
  intro f cm ep
  rw [Connect]
  by_cases h : validEndpoint ep = true ∧ f ep = false
  · rw [if_pos h]
    rfl
  · rw [if_neg h]

/-- Claim C8: destroying a manager joins all worker and routing threads;
the transport context is torn down exactly when the manager owns it, so a
manager built on an externally supplied context — whose ownership flag
stays false through any Connect calls — leaves that context intact. -/
theorem c8_external_context_survives :
    (∀ n, destroyManager (mkConnectionManagerWithContext n) =
      { threadsJoined := true, contextDestroyed := false }) ∧
    (∀ cm, (destroyManager cm).threadsJoined = true) ∧
    (∀ cm, (destroyManager cm).contextDestroyed = cm.owns_context_) ∧
    (∀ f cm ep, (Connect f cm ep).1.owns_context_ = cm.owns_context_) := by
  refine ⟨fun n => rfl, fun cm => rfl, fun cm => rfl, ?_⟩
  intro f cm ep
  rw [Connect]
  by_cases h : validEndpoint ep = true ∧ f ep = false
  · rw [if_pos h]
  · rw [if_neg h]

/-- Claim C9: the caller-visible record is exactly a status plus a reply
frame sequence, and the status enumeration carries the numeric encoding
INACTIVE 0, ACTIVE 1, DONE 2, DEADLINE_EXCEEDED 3. -/
theorem c9_response_record_encoding :
    Status.toNat .INACTIVE = 0 ∧ Status.toNat .ACTIVE = 1 ∧
    Status.toNat .DONE = 2 ∧ Status.toNat .DEADLINE_EXCEEDED = 3 ∧
    (∀ r : RemoteResponse, r = { status := r.status, reply := r.reply }) :=
  ⟨rfl, rfl, rfl, rfl, fun _ => rfl⟩

end Zrpc
